import Mathlib

/-!
Verification of nmap2csv — shallow embedding of main.go.

A shallow embedding of `main.go` of the `nmap2csv` tool: the decoded scan
document model and the three aggregation pipelines (hostname mode, port mode,
vendor mode), together with theorems settling the specification claims.

Conventions:
* Go slices become `List`; Go loops become `List.foldl` over the same data
  in the same order; `append` inside a loop becomes `acc ++ [x]`.
* Go `map[string]bool` used only for membership becomes a `List String`
  queried with `List.contains` (duplicate insertions do not change
  membership).
* Go `map[string]*PortInfo` / `map[string]int` become association lists kept
  in first-insertion order; they carry exactly the key → value content of the
  Go map.  Go map *iteration order* is randomized at runtime and is modelled
  where needed as an arbitrary permutation of that content.
* `strconv.Itoa` becomes `toString : Int → String` (both print the canonical
  decimal representation with a leading `-` for negatives).
-/

set_option autoImplicit false

namespace Nmap2Csv

/-- Go struct `Address` from main.go: addr, addrtype and vendor XML attributes. -/
structure Address where
  addr : String
  addrType : String
  vendor : String
  deriving Repr, DecidableEq

/-- Go struct `Hostname` from main.go: the name attribute. -/
structure Hostname where
  name : String
  deriving Repr, DecidableEq

/-- Go struct `State` from main.go: the state attribute of a port. -/
structure PState where
  state : String
  deriving Repr, DecidableEq

/-- Go struct `Service` from main.go: the service name attribute of a port. -/
structure Service where
  name : String
  deriving Repr, DecidableEq

/-- Go struct `Port` from main.go: protocol, numeric id, state and service. -/
structure Port where
  protocol : String
  portID : Int
  state : PState
  service : Service
  deriving Repr, DecidableEq

/-- Go struct `Host` from main.go: addresses, hostnames and ports of one scanned host. -/
structure Host where
  addresses : List Address
  hostnames : List Hostname
  ports : List Port
  deriving Repr, DecidableEq

/-- Go struct `NmapRun` from main.go: the decoded document, a list of hosts. -/
structure NmapRun where
  hosts : List Host
  deriving Repr, DecidableEq

/-- Go struct `HostInfo` from main.go: one emitted row of hostname mode. -/
structure HostInfo where
  hostname : String
  ipv4 : String
  mac : String
  vendor : String
  countOpen : Nat
  ports : String
  deriving Repr, DecidableEq

/-- Go struct `PortInfo` from main.go: one emitted row of port mode. -/
structure PortInfo where
  key : String
  service : String
  count : Nat
  deriving Repr, DecidableEq

/-- Go struct `VendorInfo` from main.go: one emitted row of vendor mode. -/
structure VendorInfo where
  name : String
  count : Nat
  deriving Repr, DecidableEq

/-! ## String helpers used by main.go (Go standard library) -/

/-- Go `unicode.IsSpace`: the white-space code points trimmed by
`strings.TrimSpace`. -/
def goIsSpace (c : Char) : Bool :=
  c == ' ' || c == '\t' || c == '\n' || c == '\r' ||
  c == Char.ofNat 0x0B || c == Char.ofNat 0x0C ||
  c == Char.ofNat 0x85 || c == Char.ofNat 0xA0 ||
  c == Char.ofNat 0x1680 ||
  (0x2000 ≤ c.toNat && c.toNat ≤ 0x200A) ||
  c == Char.ofNat 0x2028 || c == Char.ofNat 0x2029 ||
  c == Char.ofNat 0x202F || c == Char.ofNat 0x205F ||
  c == Char.ofNat 0x3000

/-- Go `strings.TrimSpace`: drop leading and trailing white space. -/
def trimSpace (s : String) : String :=
  ⟨((s.toList.dropWhile goIsSpace).reverse.dropWhile goIsSpace).reverse⟩

/-- Go `strconv.Itoa` (canonical decimal representation). -/
def itoa (n : Int) : String := toString n

/-- Splitting worker: accumulate the current field (reversed) until a comma,
emit fields left to right. -/
def splitCommaAux : List Char → List Char → List String
  | [], cur => [⟨cur.reverse⟩]
  | c :: rest, cur =>
    if c == ',' then ⟨cur.reverse⟩ :: splitCommaAux rest []
    else splitCommaAux rest (c :: cur)

/-- Go `strings.Split(s, ",")`: the comma-separated fields of `s`, in order;
an empty string yields the single field `""`. -/
def splitComma (s : String) : List String := splitCommaAux s.toList []

/-! ## Hostname mode (main.go lines 164–214)

First `ports := strings.Split(*wherePorts, ",")` and
`showAllPort := len(*wherePorts) == 0`, and a membership set of the trimmed
entries; then one `HostInfo` per matched host, sorted by `CountOpen`
descending. -/

/-- The parsed filter set of hostname mode: the comma-separated entries of the
`-whereport` flag, each white-space-trimmed (`portSet` in main.go; membership
only, so a list queried with `contains`). -/
def mkPortSet (wherePorts : String) : List String :=
  (splitComma wherePorts).map trimSpace

/-- One iteration of the address-resolution loop of hostname mode, acting on
the `(ipv4, mac, vendor)` locals: an `ipv4`-tagged address overwrites `ipv4`,
a `mac`-tagged address overwrites `mac` and `vendor`. -/
def addrStep (acc : String × String × String) (a : Address) : String × String × String :=
  (if a.addrType == "ipv4" then a.addr else acc.1,
   if a.addrType == "mac" then a.addr else acc.2.1,
   if a.addrType == "mac" then a.vendor else acc.2.2)

/-- The address-resolution loop of hostname mode: fold over the host's
addresses, keeping the last `ipv4` address and the last `mac` address/vendor
pair (`ipv4`, `mac`, `vendor` locals in main.go, all starting empty). -/
def resolveAddrs (addrs : List Address) : String × String × String :=
  addrs.foldl addrStep ("", "", "")

/-- The first hostname of the host, or empty (`hostname` local in main.go). -/
def deriveHostname (h : Host) : String :=
  match h.hostnames with
  | [] => ""
  | hn :: _ => hn.name

/-- The filter test applied to an open port in hostname mode:
`showAllPort || portSet[strconv.Itoa(p.PortID)]`. -/
def portMatches (showAllPort : Bool) (portSet : List String) (p : Port) : Bool :=
  showAllPort || portSet.contains (itoa p.portID)

/-- One iteration of the port-walk loop of hostname mode, acting on the
`(countOpen, match, openPort)` locals: an open port increments `countOpen`
unconditionally; if it also passes the filter, `match` is set and the decimal
id appended to `openPort`. -/
def walkStep (showAllPort : Bool) (portSet : List String)
    (acc : Nat × Bool × List String) (p : Port) : Nat × Bool × List String :=
  if p.state.state == "open" then
    if portMatches showAllPort portSet p then
      (acc.1 + 1, true, acc.2.2 ++ [itoa p.portID])
    else
      (acc.1 + 1, acc.2.1, acc.2.2)
  else acc

/-- The port-walk loop of hostname mode over a host's port list.  Returns the
final `(countOpen, match, openPort)`. -/
def walkPorts (showAllPort : Bool) (portSet : List String) (ports : List Port) :
    Nat × Bool × List String :=
  ports.foldl (walkStep showAllPort portSet) (0, false, [])

/-- The `HostInfo` record built for a host in hostname mode. -/
def hostInfoOf (showAllPort : Bool) (portSet : List String) (h : Host) : HostInfo :=
  let a := resolveAddrs h.addresses
  let w := walkPorts showAllPort portSet h.ports
  { hostname := deriveHostname h
    ipv4 := a.1
    mac := a.2.1
    vendor := a.2.2
    countOpen := w.1
    ports := String.intercalate "," w.2.2 }

/-- One iteration of the host loop of hostname mode: append the host's record
to `results` when its `match` flag is set. -/
def resultsStep (showAllPort : Bool) (portSet : List String)
    (res : List HostInfo) (h : Host) : List HostInfo :=
  if (walkPorts showAllPort portSet h.ports).2.1 then
    res ++ [hostInfoOf showAllPort portSet h]
  else res

/-- The `results` slice of hostname mode: one record appended per host whose
`match` flag is set, in input host order. -/
def hostnameResults (showAllPort : Bool) (portSet : List String) (hosts : List Host) :
    List HostInfo :=
  hosts.foldl (resultsStep showAllPort portSet) []

/-- Stable insertion step for descending sort by `key`. -/
def sortInsert {α : Type} (key : α → Nat) (x : α) : List α → List α
  | [] => [x]
  | y :: ys => if key y ≤ key x then x :: y :: ys else y :: sortInsert key x ys

/-- Descending sort by `key`.  Models the comparator
`func(i, j) { return key(i) > key(j) }` passed to `sort.Slice` in main.go.
`sort.Slice` promises only the ordering, not tie order (it is unstable and,
for the map-fed modes, its input order is randomized); this model is a stable
sort, exact for the slice lengths used in the concrete theorems below
(Go's sort falls back to insertion sort there), and no theorem about the
program relies on its tie behaviour beyond that. -/
def sortByCountDesc {α : Type} (key : α → Nat) : List α → List α
  | [] => []
  | x :: xs => sortInsert key x (sortByCountDesc key xs)

/-- Hostname mode, full pipeline: parse the `-whereport` flag, build the
per-host records, sort by open-port count descending. -/
def hostnameMode (wherePorts : String) (hosts : List Host) : List HostInfo :=
  sortByCountDesc (fun r => r.countOpen)
    (hostnameResults (wherePorts.length == 0) (mkPortSet wherePorts) hosts)

/-! ## Port mode (main.go lines 236–257)

Here `portMap` is a Go `map[string]*PortInfo`: on the first open occurrence of a
key an entry `{Key, Service, Count: 0}` is created, and `Count` is
incremented on every open occurrence.  We keep the same key → value content
in an association list in first-insertion order; the Go map's *iteration*
order when emitting is randomized and is treated as an arbitrary permutation
of this content. -/

/-- Go `key := fmt.Sprintf("%d/%s", p.PortID, p.Protocol)`. -/
def portKey (p : Port) : String := itoa p.portID ++ "/" ++ p.protocol

/-- One open-port occurrence hitting the port map: create the entry with the
current service name if the key is absent, then increment its count
(absent + increment = count 1). -/
def bumpPort (key service : String) : List PortInfo → List PortInfo
  | [] => [⟨key, service, 1⟩]
  | e :: rest =>
    if e.key == key then ⟨e.key, e.service, e.count + 1⟩ :: rest
    else e :: bumpPort key service rest

/-- The body of the port-mode scan loop for a single port. -/
def portStep (m : List PortInfo) (p : Port) : List PortInfo :=
  if p.state.state == "open" then bumpPort (portKey p) p.service.name m else m

/-- The content of `portMap` after scanning all hosts in input order. -/
def portMapOf (hosts : List Host) : List PortInfo :=
  hosts.foldl (fun m h => h.ports.foldl portStep m) []

/-- The count stored in the port map for a key (0 when absent — absent keys
produce no record, so 0 also reads as "never emitted"). -/
def lookupCount (m : List PortInfo) (key : String) : Nat :=
  match m.find? (fun e => e.key == key) with
  | some e => e.count
  | none => 0

/-- The service name stored in the port map for a key, when present. -/
def lookupService (m : List PortInfo) (key : String) : Option String :=
  (m.find? (fun e => e.key == key)).map (fun e => e.service)

/-! ## Vendor mode (main.go lines 279–295)

Here `vendorMap` is a Go `map[string]int` counting every `mac`-tagged address per
vendor string (the empty vendor string is an ordinary key).  Same association
list treatment as the port map. -/

/-- One mac address hitting the vendor map: `vendorMap[a.Vendor]++`. -/
def bumpVendor (name : String) : List VendorInfo → List VendorInfo
  | [] => [⟨name, 1⟩]
  | e :: rest =>
    if e.name == name then ⟨e.name, e.count + 1⟩ :: rest
    else e :: bumpVendor name rest

/-- The body of the vendor-mode scan loop for a single address. -/
def vendorStep (m : List VendorInfo) (a : Address) : List VendorInfo :=
  if a.addrType == "mac" then bumpVendor a.vendor m else m

/-- The content of `vendorMap` after scanning all hosts in input order. -/
def vendorMapOf (hosts : List Host) : List VendorInfo :=
  hosts.foldl (fun m h => h.addresses.foldl vendorStep m) []

/-- The count stored in the vendor map for a vendor string (0 when absent). -/
def lookupVendorCount (m : List VendorInfo) (name : String) : Nat :=
  match m.find? (fun e => e.name == name) with
  | some e => e.count
  | none => 0

/-! ## Mode dispatcher (main.go lines 164, 236, 279)

Three successive `if` blocks, each ending in `return`: hostname mode wins
over port mode, which wins over vendor mode; with no flag set, `main` falls
through and produces no output.  The dispatcher carries each mode's
aggregation result (for port/vendor modes the map content; emission order of
those maps is settled separately). -/

/-- Which pipeline ran, with its aggregation result; `noOut` when no mode
flag is set (a normal return, not an error). -/
inductive ModeOutput where
  | hostOut (rows : List HostInfo)
  | portOut (content : List PortInfo)
  | vendorOut (content : List VendorInfo)
  | noOut
  deriving Repr, DecidableEq

/-- The mode dispatch of `main`: first-match-wins over the three flags. -/
def dispatch (showHostnames showPorts showVendors : Bool) (wherePorts : String)
    (nmap : NmapRun) : ModeOutput :=
  if showHostnames then .hostOut (hostnameMode wherePorts nmap.hosts)
  else if showPorts then .portOut (portMapOf nmap.hosts)
  else if showVendors then .vendorOut (vendorMapOf nmap.hosts)
  else .noOut

/-! ## Spec-side definition for claim C1 (refinement comparison)

The claim reads every `PortRecord.count` as "the number of hosts that have at
least one port with that exact id+protocol in state open"; this definition
follows those words, to be compared with `portMapOf` from the source. -/

/-- Spec-side: the number of hosts having at least one open port with the
given key. -/
def specHostCountOpenKey (hosts : List Host) (key : String) : Nat :=
  (hosts.filter
    (fun h => h.ports.any (fun p => p.state.state == "open" && portKey p == key))).length

/-! ## Claim-side helper predicates and functions -/

/-- Predicate: the port is open and has the given `portid/protocol` key. -/
def openWithKey (key : String) (p : Port) : Bool :=
  p.state.state == "open" && portKey p == key

/-- Predicate: the address is mac-tagged and carries the given vendor string. -/
def macWithVendor (name : String) (a : Address) : Bool :=
  a.addrType == "mac" && a.vendor == name

/-- Claim-side: the last address in the list carrying the given tag, if any
(later list elements win). -/
def lastTagged (tag : String) : List Address → Option Address
  | [] => none
  | a :: rest =>
    match lastTagged tag rest with
    | some x => some x
    | none => if a.addrType == tag then some a else none

/-- First-biased choice on options (`a` when present, else `b`). -/
def optOr {α : Type} (a b : Option α) : Option α :=
  match a with
  | some x => some x
  | none => b

/-- The ports of all hosts, flattened in walk order: the order in which the
two nested loops of port mode visit them. -/
def allPorts (hosts : List Host) : List Port :=
  (hosts.map Host.ports).flatten

/-- The addresses of all hosts, flattened in walk order: the order in which
the two nested loops of vendor mode visit them. -/
def allAddresses (hosts : List Host) : List Address :=
  (hosts.map Host.addresses).flatten

/-! ## Concrete example hosts used in closed theorems

These are the documents from section 8 of the specification (hosts A and B)
and the small documents exercising the edge cases of the claims. -/

/-- Example host A of the spec: 10.0.0.1 with 22/tcp open, 80/tcp open,
81/tcp closed. -/
def exHostA : Host :=
  ⟨[⟨"10.0.0.1", "ipv4", ""⟩], [⟨"a.local"⟩],
   [⟨"tcp", 22, ⟨"open"⟩, ⟨"ssh"⟩⟩, ⟨"tcp", 80, ⟨"open"⟩, ⟨"http"⟩⟩,
    ⟨"tcp", 81, ⟨"closed"⟩, ⟨""⟩⟩]⟩

/-- Example host B of the spec: 10.0.0.2 with 22/tcp open. -/
def exHostB : Host :=
  ⟨[⟨"10.0.0.2", "ipv4", ""⟩], [], [⟨"tcp", 22, ⟨"open"⟩, ⟨"ssh"⟩⟩]⟩

/-- A host listing the same open port key twice (22/tcp, both open). -/
def dupKeyHost : Host :=
  ⟨[], [], [⟨"tcp", 22, ⟨"open"⟩, ⟨"ssh"⟩⟩, ⟨"tcp", 22, ⟨"open"⟩, ⟨"ssh"⟩⟩]⟩

/-- A host listing 22/tcp open twice with two different service names. -/
def dupSvcHost : Host :=
  ⟨[], [], [⟨"tcp", 22, ⟨"open"⟩, ⟨"ssh"⟩⟩, ⟨"tcp", 22, ⟨"open"⟩, ⟨"sshd"⟩⟩]⟩

/-- A host with only 22/tcp open. -/
def only22Host : Host := ⟨[], [], [⟨"tcp", 22, ⟨"open"⟩, ⟨"ssh"⟩⟩]⟩

/-- A host with only 80/tcp open. -/
def only80Host : Host := ⟨[], [], [⟨"tcp", 80, ⟨"open"⟩, ⟨"http"⟩⟩]⟩

/-- A host with two mac addresses, both with an empty vendor attribute. -/
def twoMacHost : Host :=
  ⟨[⟨"aa:aa:aa:aa:aa:aa", "mac", ""⟩, ⟨"bb:bb:bb:bb:bb:bb", "mac", ""⟩], [], []⟩

/-- A host with 22 open on both tcp and udp. -/
def tcpUdpHost : Host :=
  ⟨[], [], [⟨"tcp", 22, ⟨"open"⟩, ⟨"ssh"⟩⟩, ⟨"udp", 22, ⟨"open"⟩, ⟨"domain"⟩⟩]⟩

/-! ## Characterization lemmas: hostname-mode port walk -/

/-- Predicate: the port is open and passes the hostname-mode filter. -/
def openMatching (sa : Bool) (ps : List String) (p : Port) : Bool :=
  p.state.state == "open" && portMatches sa ps p

theorem foldl_walkStep (sa : Bool) (ps : List String) (l : List Port) :
    ∀ (c : Nat) (b : Bool) (acc : List String),
      l.foldl (walkStep sa ps) (c, b, acc) =
        (c + (l.filter (fun p => p.state.state == "open")).length,
         b || l.any (openMatching sa ps),
         acc ++ (l.filter (openMatching sa ps)).map (fun p => itoa p.portID)) := by
  induction l with
  | nil => intro c b acc; simp
  | cons p l ih =>
    intro c b acc
    simp only [List.foldl_cons, walkStep]
    by_cases ho : p.state.state == "open" <;>
      by_cases hm : portMatches sa ps p <;>
        simp [ho, hm, ih, openMatching, List.filter_cons, List.any_cons,
          Prod.ext_iff, List.append_assoc] <;>
      omega

theorem walkPorts_eq (sa : Bool) (ps : List String) (l : List Port) :
    walkPorts sa ps l =
      ((l.filter (fun p => p.state.state == "open")).length,
       l.any (openMatching sa ps),
       (l.filter (openMatching sa ps)).map (fun p => itoa p.portID)) := by
  simpa [walkPorts] using foldl_walkStep sa ps l 0 false []

theorem foldl_resultsStep (sa : Bool) (ps : List String) (hosts : List Host) :
    ∀ (acc : List HostInfo),
      hosts.foldl (resultsStep sa ps) acc =
        acc ++ (hosts.filter (fun h => (walkPorts sa ps h.ports).2.1)).map
          (hostInfoOf sa ps) := by
  induction hosts with
  | nil => intro acc; simp
  | cons h hosts ih =>
    intro acc
    by_cases hm : (walkPorts sa ps h.ports).2.1
    · simp [List.foldl_cons, resultsStep, hm, ih, List.filter_cons]
    · simp [List.foldl_cons, resultsStep, hm, ih, List.filter_cons]

theorem hostnameResults_eq (sa : Bool) (ps : List String) (hosts : List Host) :
    hostnameResults sa ps hosts =
      (hosts.filter (fun h => (walkPorts sa ps h.ports).2.1)).map (hostInfoOf sa ps) := by
  simpa [hostnameResults] using foldl_resultsStep sa ps hosts []

/-! ## Characterization lemmas: option helper -/

@[simp] theorem optOr_some {α : Type} (x : α) (b : Option α) : optOr (some x) b = some x := rfl

@[simp] theorem optOr_none {α : Type} (b : Option α) : optOr none b = b := rfl

theorem optOr_assoc {α : Type} (a b c : Option α) :
    optOr (optOr a b) c = optOr a (optOr b c) := by
  cases a <;> simp

theorem optOr_getD {α : Type} (a : Option α) (x : α) :
    optOr a (some x) = some (a.getD x) := by
  cases a <;> simp

theorem map_optOr {α β : Type} (f : α → β) (a b : Option α) :
    (optOr a b).map f = optOr (a.map f) (b.map f) := by
  cases a <;> simp

theorem head?_append_optOr {α : Type} (a b : List α) :
    (a ++ b).head? = optOr a.head? b.head? := by
  cases a <;> simp

/-! ## Characterization lemmas: port map -/

@[simp] theorem lookupCount_nil (k : String) : lookupCount [] k = 0 := rfl

@[simp] theorem lookupService_nil (k : String) : lookupService [] k = none := rfl

theorem lookupCount_cons (e : PortInfo) (m : List PortInfo) (k : String) :
    lookupCount (e :: m) k = if e.key == k then e.count else lookupCount m k := by
  by_cases h : e.key == k <;> simp [lookupCount, List.find?_cons, h]

theorem lookupService_cons (e : PortInfo) (m : List PortInfo) (k : String) :
    lookupService (e :: m) k = if e.key == k then some e.service else lookupService m k := by
  by_cases h : e.key == k <;> simp [lookupService, List.find?_cons, h]

theorem lookupCount_bumpPort (k s k' : String) (m : List PortInfo) :
    lookupCount (bumpPort k s m) k' = lookupCount m k' + (if k' = k then 1 else 0) := by
  induction m with
  | nil =>
    simp only [bumpPort, lookupCount_cons, lookupCount_nil, beq_iff_eq]
    rcases eq_or_ne k' k with h | h
    · simp [h]
    · simp [h, h.symm]
  | cons e m ih =>
    simp only [bumpPort, beq_iff_eq]
    by_cases he : e.key = k
    · subst he
      rcases eq_or_ne e.key k' with h | h
      · simp [if_pos rfl, lookupCount_cons, beq_iff_eq, h]
      · simp [if_pos rfl, lookupCount_cons, beq_iff_eq, h, h.symm]
    · simp only [he, if_false, lookupCount_cons, beq_iff_eq, ih]
      rcases eq_or_ne e.key k' with h | h
      · have hk : k' ≠ k := fun hh => he (h.trans hh)
        simp [h, hk]
      · simp [h]

theorem lookupService_bumpPort (k s k' : String) (m : List PortInfo) :
    lookupService (bumpPort k s m) k' =
      if k' = k then some ((lookupService m k).getD s) else lookupService m k' := by
  induction m with
  | nil =>
    simp only [bumpPort, lookupService_cons, lookupService_nil, beq_iff_eq,
      Option.getD_none]
    rcases eq_or_ne k' k with h | h
    · simp [h]
    · simp [h, h.symm]
  | cons e m ih =>
    simp only [bumpPort, beq_iff_eq]
    by_cases he : e.key = k
    · subst he
      rcases eq_or_ne e.key k' with h | h
      · simp [if_pos rfl, lookupService_cons, beq_iff_eq, h]
      · simp [if_pos rfl, lookupService_cons, beq_iff_eq, h, h.symm]
    · simp only [he, if_false, lookupService_cons, beq_iff_eq, ih]
      rcases eq_or_ne e.key k' with h | h
      · have hk : k' ≠ k := fun hh => he (h.trans hh)
        simp [h, hk]
      · simp [h]

theorem lookupCount_foldl_portStep (k : String) (l : List Port) :
    ∀ m, lookupCount (l.foldl portStep m) k =
      lookupCount m k + (l.filter (openWithKey k)).length := by
  induction l with
  | nil => intro m; simp
  | cons p l ih =>
    intro m
    simp only [List.foldl_cons, portStep]
    by_cases ho : p.state.state == "open"
    · simp only [ho, if_true, ih, lookupCount_bumpPort, List.filter_cons, openWithKey,
        Bool.true_and]
      rcases eq_or_ne (portKey p) k with hk | hk
      · simp only [hk, if_pos rfl, beq_self_eq_true, if_true, List.length_cons]
        omega
      · simp only [beq_iff_eq, hk, Ne.symm hk, if_false]
        omega
    · simp [ho, ih, List.filter_cons, openWithKey]

theorem lookupService_foldl_portStep (k : String) (l : List Port) :
    ∀ m, lookupService (l.foldl portStep m) k =
      optOr (lookupService m k)
        (((l.filter (openWithKey k)).head?).map (fun p => p.service.name)) := by
  induction l with
  | nil => intro m; cases h : lookupService m k <;> simp [h]
  | cons p l ih =>
    intro m
    simp only [List.foldl_cons, portStep]
    by_cases ho : p.state.state == "open"
    · simp only [ho, if_true, ih, lookupService_bumpPort, List.filter_cons, openWithKey,
        Bool.true_and]
      rcases eq_or_ne (portKey p) k with hk | hk
      · simp only [hk, if_pos rfl, beq_self_eq_true, if_true, List.head?_cons,
          ← optOr_getD, optOr_assoc]
        simp
      · simp only [beq_iff_eq, hk, Ne.symm hk, if_false]
    · simp [ho, ih, List.filter_cons, openWithKey]

theorem allPorts_cons (h : Host) (hosts : List Host) :
    allPorts (h :: hosts) = h.ports ++ allPorts hosts := by
  simp [allPorts]

theorem lookupCount_foldl_hosts (k : String) (hosts : List Host) :
    ∀ m, lookupCount (hosts.foldl (fun m h => h.ports.foldl portStep m) m) k =
      lookupCount m k + ((allPorts hosts).filter (openWithKey k)).length := by
  induction hosts with
  | nil => intro m; simp [allPorts]
  | cons h hosts ih =>
    intro m
    simp only [List.foldl_cons, ih, lookupCount_foldl_portStep, allPorts_cons,
      List.filter_append, List.length_append]
    omega

theorem lookupService_foldl_hosts (k : String) (hosts : List Host) :
    ∀ m, lookupService (hosts.foldl (fun m h => h.ports.foldl portStep m) m) k =
      optOr (lookupService m k)
        (((allPorts hosts).filter (openWithKey k)).head?.map (fun p => p.service.name)) := by
  induction hosts with
  | nil => intro m; cases h : lookupService m k <;> simp [h, allPorts]
  | cons h hosts ih =>
    intro m
    simp only [List.foldl_cons, ih, lookupService_foldl_portStep, allPorts_cons,
      List.filter_append, head?_append_optOr, map_optOr, optOr_assoc]

theorem lookupCount_portMapOf (hosts : List Host) (k : String) :
    lookupCount (portMapOf hosts) k = ((allPorts hosts).filter (openWithKey k)).length := by
  simpa [portMapOf] using lookupCount_foldl_hosts k hosts []

theorem lookupService_portMapOf (hosts : List Host) (k : String) :
    lookupService (portMapOf hosts) k =
      ((allPorts hosts).filter (openWithKey k)).head?.map (fun p => p.service.name) := by
  simpa [portMapOf] using lookupService_foldl_hosts k hosts []

/-- Ports that are not open are skipped by the port-mode scan loop. -/
theorem foldl_portStep_filter_open (l : List Port) :
    ∀ m, l.foldl portStep m =
      (l.filter (fun p => p.state.state == "open")).foldl portStep m := by
  induction l with
  | nil => intro m; simp
  | cons p l ih =>
    intro m
    by_cases ho : p.state.state == "open"
    · simp [List.filter_cons, ho, ih, portStep]
    · simp [List.filter_cons, ho, ih, portStep]

theorem foldl_hosts_filter_open (hosts : List Host) :
    ∀ m, hosts.foldl (fun m h => h.ports.foldl portStep m) m =
      (hosts.map
        (fun h => { h with ports := h.ports.filter (fun p => p.state.state == "open") })).foldl
        (fun m h => h.ports.foldl portStep m) m := by
  induction hosts with
  | nil => intro m; rfl
  | cons h hosts ih =>
    intro m
    simp only [List.map_cons, List.foldl_cons]
    rw [← foldl_portStep_filter_open]
    exact ih _

/-- Discarding every non-open port from every host leaves the port map
unchanged. -/
theorem portMapOf_filter_open (hosts : List Host) :
    portMapOf hosts =
      portMapOf (hosts.map
        (fun h => { h with ports := h.ports.filter (fun p => p.state.state == "open") })) := by
  unfold portMapOf
  exact foldl_hosts_filter_open hosts []

/-! ## Characterization lemmas: vendor map -/

@[simp] theorem lookupVendorCount_nil (k : String) : lookupVendorCount [] k = 0 := rfl

theorem lookupVendorCount_cons (e : VendorInfo) (m : List VendorInfo) (k : String) :
    lookupVendorCount (e :: m) k =
      if e.name == k then e.count else lookupVendorCount m k := by
  by_cases h : e.name == k <;> simp [lookupVendorCount, List.find?_cons, h]

theorem lookupVendorCount_bumpVendor (k k' : String) (m : List VendorInfo) :
    lookupVendorCount (bumpVendor k m) k' =
      lookupVendorCount m k' + (if k' = k then 1 else 0) := by
  induction m with
  | nil =>
    simp only [bumpVendor, lookupVendorCount_cons, lookupVendorCount_nil, beq_iff_eq]
    rcases eq_or_ne k' k with h | h
    · simp [h]
    · simp [h, h.symm]
  | cons e m ih =>
    simp only [bumpVendor, beq_iff_eq]
    by_cases he : e.name = k
    · subst he
      rcases eq_or_ne e.name k' with h | h
      · simp [if_pos rfl, lookupVendorCount_cons, beq_iff_eq, h]
      · simp [if_pos rfl, lookupVendorCount_cons, beq_iff_eq, h, h.symm]
    · simp only [he, if_false, lookupVendorCount_cons, beq_iff_eq, ih]
      rcases eq_or_ne e.name k' with h | h
      · have hk : k' ≠ k := fun hh => he (h.trans hh)
        simp [h, hk]
      · simp [h]

theorem lookupVendorCount_foldl_vendorStep (k : String) (l : List Address) :
    ∀ m, lookupVendorCount (l.foldl vendorStep m) k =
      lookupVendorCount m k + (l.filter (macWithVendor k)).length := by
  induction l with
  | nil => intro m; simp
  | cons a l ih =>
    intro m
    simp only [List.foldl_cons, vendorStep]
    by_cases hm : a.addrType == "mac"
    · simp only [hm, if_true, ih, lookupVendorCount_bumpVendor, List.filter_cons,
        macWithVendor, Bool.true_and]
      rcases eq_or_ne a.vendor k with hk | hk
      · simp only [hk, if_pos rfl, beq_self_eq_true, if_true, List.length_cons]
        omega
      · simp only [beq_iff_eq, hk, Ne.symm hk, if_false]
        omega
    · simp [hm, ih, List.filter_cons, macWithVendor]

theorem allAddresses_cons (h : Host) (hosts : List Host) :
    allAddresses (h :: hosts) = h.addresses ++ allAddresses hosts := by
  simp [allAddresses]

theorem lookupVendorCount_foldl_hosts (k : String) (hosts : List Host) :
    ∀ m, lookupVendorCount
        (hosts.foldl (fun m h => h.addresses.foldl vendorStep m) m) k =
      lookupVendorCount m k + ((allAddresses hosts).filter (macWithVendor k)).length := by
  induction hosts with
  | nil => intro m; simp [allAddresses]
  | cons h hosts ih =>
    intro m
    simp only [List.foldl_cons, ih, lookupVendorCount_foldl_vendorStep, allAddresses_cons,
      List.filter_append, List.length_append]
    omega

theorem lookupVendorCount_vendorMapOf (hosts : List Host) (k : String) :
    lookupVendorCount (vendorMapOf hosts) k =
      ((allAddresses hosts).filter (macWithVendor k)).length := by
  simpa [vendorMapOf] using lookupVendorCount_foldl_hosts k hosts []

/-! ## Characterization lemmas: address resolution -/

theorem foldl_addrStep (l : List Address) :
    ∀ (i m v : String),
      l.foldl addrStep (i, m, v) =
        (((lastTagged "ipv4" l).map Address.addr).getD i,
         ((lastTagged "mac" l).map Address.addr).getD m,
         ((lastTagged "mac" l).map Address.vendor).getD v) := by
  induction l with
  | nil => intro i m v; simp [lastTagged]
  | cons a l ih =>
    intro i m v
    simp only [List.foldl_cons, addrStep, ih]
    cases h4 : lastTagged "ipv4" l <;> cases hm : lastTagged "mac" l <;>
      by_cases hi : a.addrType == "ipv4" <;> by_cases hmc : a.addrType == "mac" <;>
        simp [lastTagged, h4, hm, hi, hmc]

theorem resolveAddrs_eq (l : List Address) :
    resolveAddrs l =
      (((lastTagged "ipv4" l).map Address.addr).getD "",
       ((lastTagged "mac" l).map Address.addr).getD "",
       ((lastTagged "mac" l).map Address.vendor).getD "") := by
  simpa [resolveAddrs] using foldl_addrStep l "" "" ""

/-! ## Generic list helpers -/

theorem any_congr_mem {α : Type} {l : List α} {p q : α → Bool}
    (h : ∀ x ∈ l, p x = q x) : l.any p = l.any q := by
  induction l with
  | nil => rfl
  | cons a l ih =>
    simp only [List.any_cons, h a (by simp), ih (fun x hx => h x (by simp [hx]))]

theorem contains_map_eq_any {α : Type} [BEq α] [LawfulBEq α] (l : List α) (f : α → α)
    (x : α) : (l.map f).contains x = l.any (fun e => f e == x) := by
  induction l with
  | nil => rfl
  | cons a l ih =>
    simp only [List.map_cons, List.contains_cons, List.any_cons, ih, Bool.beq_comm]

/-! ## Claim C1 -/

/-- C1, counterexample: in port mode, a single host listing 22/tcp open twice
gets a PortRecord count of 2, while only 1 host has such a port open, so the
count is not "the number of hosts that have at least one port with that exact
id+protocol open". -/
theorem c1_count_not_host_count :
    lookupCount (portMapOf [dupKeyHost]) "22/tcp" = 2 ∧
    specHostCountOpenKey [dupKeyHost] "22/tcp" = 1 ∧
    lookupCount (portMapOf [dupKeyHost]) "22/tcp" ≠
      specHostCountOpenKey [dupKeyHost] "22/tcp" :=
  ⟨by decide, by decide, by decide⟩

/-- C1, amended: in port mode, for every document, every key's count equals
the number of open-port occurrences with that exact id+protocol across all
hosts (one per occurrence, also within a single host); ports whose state is
not "open" never contribute — removing them from every host leaves the port
map unchanged. -/
theorem c1_port_count_open_occurrences (hosts : List Host) (key : String) :
    lookupCount (portMapOf hosts) key =
      ((allPorts hosts).filter (openWithKey key)).length ∧
    portMapOf hosts =
      portMapOf (hosts.map
        (fun h => { h with ports := h.ports.filter (fun p => p.state.state == "open") })) :=
  ⟨lookupCount_portMapOf hosts key, portMapOf_filter_open hosts⟩

/-! ## Claim C2 -/

/-- C2: the emission order of port mode is not a function of the input
document.  On a document producing the tied map content
[22/tcp ssh 1, 80/tcp http 1] (first-seen order), the reversed content is an
equally valid Go map iteration order (map iteration is randomized), and the
count-descending sort emits the two tied records in different relative orders
for the two iteration orders, so the claim's first-seen, run-reproducible tie
order is not enforced by the code. -/
theorem c2_tie_order_not_reproducible :
    portMapOf [only22Host, only80Host] =
      [⟨"22/tcp", "ssh", 1⟩, ⟨"80/tcp", "http", 1⟩] ∧
    List.Perm [(⟨"80/tcp", "http", 1⟩ : PortInfo), ⟨"22/tcp", "ssh", 1⟩]
      (portMapOf [only22Host, only80Host]) ∧
    sortByCountDesc (fun r => r.count)
        [(⟨"80/tcp", "http", 1⟩ : PortInfo), ⟨"22/tcp", "ssh", 1⟩] ≠
      sortByCountDesc (fun r => r.count) (portMapOf [only22Host, only80Host]) :=
  ⟨by decide, by decide, by decide⟩

/-! ## Claim C3 -/

/-- C3: in hostname mode, `countOpen` counts every open port unconditionally;
the decimal id is appended (and the host marked matched) exactly for open
ports passing the filter; a record is emitted for a host iff it is matched
(iff some open port passes the filter); and on spec host A with filter
{"22"}, `countOpen` is 2 while only 1 id is listed, so `CountOpenPort` can
exceed the ids in `Ports`. -/
theorem c3_count_unconditional_match_filtered_emit_iff_matched
    (showAllPort : Bool) (portSet : List String) (hosts : List Host) (h : Host) :
    ((walkPorts showAllPort portSet h.ports).1 =
      (h.ports.filter (fun p => p.state.state == "open")).length ∧
     (walkPorts showAllPort portSet h.ports).2.2 =
      (h.ports.filter (openMatching showAllPort portSet)).map (fun p => itoa p.portID) ∧
     (walkPorts showAllPort portSet h.ports).2.1 =
      h.ports.any (openMatching showAllPort portSet)) ∧
    hostnameResults showAllPort portSet hosts =
      (hosts.filter (fun g => g.ports.any (openMatching showAllPort portSet))).map
        (hostInfoOf showAllPort portSet) ∧
    (walkPorts false ["22"] exHostA.ports).1 = 2 ∧
    ((walkPorts false ["22"] exHostA.ports).2.2).length = 1 := by
  refine ⟨?_, ?_, by decide, by decide⟩
  · rw [walkPorts_eq]
    exact ⟨rfl, rfl, rfl⟩
  · rw [hostnameResults_eq]
    congr 1
    apply List.filter_congr
    intro g _
    rw [walkPorts_eq]

/-! ## Claim C4 -/

/-- C4: hostname mode with an empty `-whereport` flag produces exactly the
same record sequence as hostname mode with a non-empty flag whose parsed
filter set contains the decimal id of every open port present in the
document. -/
theorem c4_empty_filter_equiv_covering_filter (hosts : List Host) (w : String)
    (hw : (w.length == 0) = false)
    (hcov : ∀ h ∈ hosts, ∀ p ∈ h.ports,
      p.state.state = "open" → itoa p.portID ∈ mkPortSet w) :
    hostnameMode "" hosts = hostnameMode w hosts := by
  unfold hostnameMode
  rw [hw]
  have h0 : ("".length == 0) = true := rfl
  rw [h0]
  have hwalk : ∀ h ∈ hosts,
      walkPorts true (mkPortSet "") h.ports = walkPorts false (mkPortSet w) h.ports := by
    intro h hh
    have hfil : ∀ p ∈ h.ports,
        openMatching true (mkPortSet "") p = openMatching false (mkPortSet w) p := by
      intro p hp
      by_cases ho : p.state.state == "open"
      · have hmem : itoa p.portID ∈ mkPortSet w :=
          hcov h hh p hp (by simpa using ho)
        simp [openMatching, portMatches, ho, hmem]
      · simp [openMatching, ho]
    rw [walkPorts_eq, walkPorts_eq, any_congr_mem hfil, List.filter_congr hfil]
  congr 1
  rw [hostnameResults_eq, hostnameResults_eq]
  have hfl : hosts.filter (fun h => (walkPorts true (mkPortSet "") h.ports).2.1) =
      hosts.filter (fun h => (walkPorts false (mkPortSet w) h.ports).2.1) :=
    List.filter_congr (fun h hh => by rw [hwalk h hh])
  rw [hfl]
  apply List.map_congr_left
  intro h hh
  have hh' : h ∈ hosts := (List.mem_filter.mp hh).1
  simp [hostInfoOf, hwalk h hh']

/-- C4, witness: the hypotheses hold and the conclusion follows on the spec's
two-host document with filter "22,80". -/
theorem c4_empty_filter_equiv_covering_filter_witness :
    (("22,80".length == 0) = false ∧
     (∀ h ∈ [exHostA, exHostB], ∀ p ∈ h.ports,
        p.state.state = "open" → itoa p.portID ∈ mkPortSet "22,80")) ∧
    hostnameMode "" [exHostA, exHostB] = hostnameMode "22,80" [exHostA, exHostB] :=
  ⟨⟨by decide, by decide⟩,
   c4_empty_filter_equiv_covering_filter [exHostA, exHostB] "22,80"
     (by decide) (by decide)⟩

/-! ## Claim C5 -/

/-- C5: in port mode, the service name stored for a key is that of the first
open occurrence of the key in host-walk order and is never overwritten, while
the count is incremented on every open occurrence across all hosts; on a host
listing 22/tcp open twice with services "ssh" then "sshd", the record keeps
"ssh" with count 2. -/
theorem c5_service_first_seen_count_every_occurrence (hosts : List Host) (key : String) :
    lookupService (portMapOf hosts) key =
      ((allPorts hosts).filter (openWithKey key)).head?.map (fun p => p.service.name) ∧
    lookupCount (portMapOf hosts) key =
      ((allPorts hosts).filter (openWithKey key)).length ∧
    portMapOf [dupSvcHost] = [⟨"22/tcp", "ssh", 2⟩] :=
  ⟨lookupService_portMapOf hosts key, lookupCount_portMapOf hosts key, by decide⟩

/-! ## Claim C6 -/

/-- C6: in hostname mode, the emitted hostname is the host's first hostname
(or empty), the ipv4 field is the address of the last ipv4-tagged address (or
empty), and mac and vendor both come from the last mac-tagged address (or are
both empty) — address resolution is last-write-wins per address type. -/
theorem c6_first_hostname_last_address_wins (showAllPort : Bool)
    (portSet : List String) (h : Host) :
    (hostInfoOf showAllPort portSet h).hostname =
      ((h.hostnames.head?).map Hostname.name).getD "" ∧
    (hostInfoOf showAllPort portSet h).ipv4 =
      ((lastTagged "ipv4" h.addresses).map Address.addr).getD "" ∧
    (hostInfoOf showAllPort portSet h).mac =
      ((lastTagged "mac" h.addresses).map Address.addr).getD "" ∧
    (hostInfoOf showAllPort portSet h).vendor =
      ((lastTagged "mac" h.addresses).map Address.vendor).getD "" := by
  refine ⟨?_, ?_, ?_, ?_⟩
  · cases hs : h.hostnames <;> simp [hostInfoOf, deriveHostname, hs]
  · simp [hostInfoOf, resolveAddrs_eq]
  · simp [hostInfoOf, resolveAddrs_eq]
  · simp [hostInfoOf, resolveAddrs_eq]

/-! ## Claim C7 -/

/-- C7: vendor mode counts mac-tagged addresses per distinct vendor string,
with the empty vendor string as an ordinary bucket: a document with exactly
two vendorless mac addresses yields the single record (Name = "", Count = 2). -/
theorem c7_vendor_counts_empty_bucket (hosts : List Host) (name : String) :
    lookupVendorCount (vendorMapOf hosts) name =
      ((allAddresses hosts).filter (macWithVendor name)).length ∧
    vendorMapOf [twoMacHost] = [⟨"", 2⟩] :=
  ⟨lookupVendorCount_vendorMapOf hosts name, by decide⟩

/-! ## Claim C8 -/

/-- C8: mode dispatch is first-match-wins: the hostname flag wins over the
others, then the port flag, then the vendor flag; with no mode flag set, no
aggregation runs and nothing is emitted (a normal return). -/
theorem c8_mode_dispatch_first_match_wins (p v : Bool) (w : String) (d : NmapRun) :
    dispatch true p v w d = ModeOutput.hostOut (hostnameMode w d.hosts) ∧
    dispatch false true v w d = ModeOutput.portOut (portMapOf d.hosts) ∧
    dispatch false false true w d = ModeOutput.vendorOut (vendorMapOf d.hosts) ∧
    dispatch false false false w d = ModeOutput.noOut :=
  ⟨rfl, rfl, rfl, rfl⟩

/-! ## Claim C9 -/

/-- C9: the `-whereport` filter matches a port id iff some comma-separated
entry, after white-space trimming, is exactly the canonical decimal string of
the id: " 22 " matches port 22, but "022" and "0x16" do not. -/
theorem c9_whereport_trim_exact_decimal (w : String) (n : Int) :
    (mkPortSet w).contains (itoa n) =
      (splitComma w).any (fun e => trimSpace e == itoa n) ∧
    trimSpace " 22 " = "22" ∧
    portMatches false (mkPortSet " 22 ,80") ⟨"tcp", 22, ⟨"open"⟩, ⟨"ssh"⟩⟩ = true ∧
    portMatches false (mkPortSet "022") ⟨"tcp", 22, ⟨"open"⟩, ⟨"ssh"⟩⟩ = false ∧
    portMatches false (mkPortSet "0x16") ⟨"tcp", 22, ⟨"open"⟩, ⟨"ssh"⟩⟩ = false :=
  ⟨contains_map_eq_any (splitComma w) trimSpace (itoa n),
   by decide, by decide, by decide, by decide⟩

/-! ## Claim C10 -/

/-- C10: the Ports field lists the ids of matching open ports in the order of
the host's port list, comma-joined, with no deduplication and no regard to
protocol: a host with 22/tcp and 22/udp both open and matching yields
Ports = "22,22" and contributes 2 to the open-port count. -/
theorem c10_ports_joined_in_order_no_dedup (showAllPort : Bool)
    (portSet : List String) (h : Host) :
    (hostInfoOf showAllPort portSet h).ports =
      String.intercalate ","
        ((h.ports.filter (openMatching showAllPort portSet)).map
          (fun p => itoa p.portID)) ∧
    (hostInfoOf false ["22"] tcpUdpHost).ports = "22,22" ∧
    (hostInfoOf false ["22"] tcpUdpHost).countOpen = 2 := by
  refine ⟨?_, by decide, by decide⟩
  simp [hostInfoOf, walkPorts_eq]

end Nmap2Csv
